/-
Verification of the `cloudsync` library (src/src/lib.rs): a trait that lets a
serializable object persist itself to a Firestore collection.

Shallow embedding. The remote document store is modelled as a function from
collection names to ordered lists of documents (the order of a list is the
store-defined query order). The consumed capabilities of the external
Firestore client — delete-document-by-id, create-document, query-all — are
modelled as pure state transformers on that store, following spec section 4.3
(the client itself is an external collaborator, out of scope for this
repository). Each trait method (`save`, `rm`, `get`, `hash`) is translated
from its Rust body: it resolves the config, connects, and performs its client
calls in source order, recording every interaction in a trace and
short-circuiting on the first failing step exactly as the Rust `?` operator
does. Which underlying step fails is an input (`FailSpec`), so error
propagation can be stated for every failure point.
-/
import Mathlib

namespace Cloudsync

/-- Error taxonomy from spec section 7: configuration errors are distinct
from transport (connection / store request) errors. The Rust source's
`Error` is an opaque boxed error; the distinction is which stage raised it. -/
inductive CsError where
  | configuration
  | transport
deriving DecidableEq, Repr

/-- Struct `CLConfig` from the source: project id, credential path,
collection name. -/
structure CLConfig where
  project_id : String
  cred_path : String
  collection : String
deriving DecidableEq, Repr

/-- A document in the remote store: a string id and a payload. -/
structure Doc (α : Type) where
  id : String
  payload : α
deriving DecidableEq, Repr

/-- The remote document store: each collection name holds an ordered list of
documents; the list order is the store-defined order a query yields. -/
def Store (α : Type) : Type := String → List (Doc α)

/-- The store with every collection empty. -/
def emptyStore (α : Type) : Store α := fun _ => []

/-- A `CloudSync<T>`/`Unique<T>` implementation for an entity type `α` with
key type `κ` (the trait's `T`): `uuid` is `Unique::uuid`, `render` is the
`Display` rendering of `T` (what `.to_string()` produces), and `config` is
the type's `CloudSync::config()` (a pure function of the type, so a
constant here). -/
structure CloudSyncImpl (α : Type) (κ : Type) where
  uuid : α → κ
  render : κ → String
  config : CLConfig

/-- One interaction with the external client, as recorded in a trace.
`connect` is `get_fs_db` (building the `FirestoreDb` handle); the other
three are document operations on the store. -/
inductive StoreOp where
  | connect
  | deleteById (collection : String) (id : String)
  | createObj (collection : String) (id : String)
  | queryAll (collection : String)
deriving DecidableEq, Repr

/-- Whether a trace entry is a document-store operation (as opposed to
establishing the connection). -/
def StoreOp.isDocOp : StoreOp → Bool
  | .connect => false
  | _ => true

/-- Which underlying steps succeed in one trait-method call. Each flag
corresponds to one `?`-propagated client call in the Rust source. -/
structure FailSpec where
  connectOk : Bool
  deleteOk : Bool
  createOk : Bool
  queryOk : Bool
deriving DecidableEq, Repr

/-- The all-steps-succeed schedule. -/
def fsOk : FailSpec := ⟨true, true, true, true⟩

/-- Client capability `delete-document(collection, key)` (spec section 4.3):
removes any document with the given id from the collection; other documents
and other collections are untouched; absence of the id is not an error. -/
def delete_by_id (s : Store α) (coll : String) (docId : String) : Store α :=
  fun c => if c = coll then (s c).filter (fun d => d.id ≠ docId) else s c

/-- Client capability `create-or-replace-document(collection, key, payload)`
(spec section 4.3): the collection afterwards holds the new payload under the
id, replacing any previous document there; other collections are untouched. -/
def create_obj (s : Store α) (coll : String) (docId : String) (payload : α) :
    Store α :=
  fun c =>
    if c = coll then (s c).filter (fun d => d.id ≠ docId) ++ [⟨docId, payload⟩]
    else s c

/-- The store left by a successful `save`: `delete_by_id` at
`uuid().to_string()`, then `create_obj` there, in the configured collection
(lib.rs lines 46-47). -/
def saveStore (impl : CloudSyncImpl α κ) (self : α) (s : Store α) : Store α :=
  create_obj
    (delete_by_id s impl.config.collection (impl.render (impl.uuid self)))
    impl.config.collection (impl.render (impl.uuid self)) self

/-- The store left by a successful `rm`: `delete_by_id` at
`uuid().to_string()` in the configured collection (lib.rs line 55). -/
def rmStore (impl : CloudSyncImpl α κ) (self : α) (s : Store α) : Store α :=
  delete_by_id s impl.config.collection (impl.render (impl.uuid self))

/-- Body of `save` once the config is in hand: connect via `get_fs_db`, then
`delete_by_id(collection, docId)`, then `create_obj(collection, docId, self)`,
each step propagating its error with `?` (lib.rs lines 45-47). Returns the
result together with the trace of client interactions actually attempted. -/
def saveSteps (cfg : CLConfig) (docId : String) (self : α) (fs : FailSpec)
    (s : Store α) : Except CsError (Store α) × List StoreOp :=
  if fs.connectOk = false then (.error .transport, [.connect])
  else if fs.deleteOk = false then
    (.error .transport, [.connect, .deleteById cfg.collection docId])
  else if fs.createOk = false then
    (.error .transport,
      [.connect, .deleteById cfg.collection docId,
        .createObj cfg.collection docId])
  else
    (.ok (create_obj (delete_by_id s cfg.collection docId)
        cfg.collection docId self),
      [.connect, .deleteById cfg.collection docId,
        .createObj cfg.collection docId])

/-- Method `CloudSync::save` (lib.rs lines 43-49): resolve `Self::config()`
first, then run the connect / delete / create sequence, addressing the
document by `self.uuid().to_string()`. -/
def save (impl : CloudSyncImpl α κ) (self : α) (fs : FailSpec) (s : Store α) :
    Except CsError (Store α) × List StoreOp :=
  saveSteps impl.config (impl.render (impl.uuid self)) self fs s

/-- Method `CloudSync::rm` (lib.rs lines 52-57): resolve config, connect,
then `delete_by_id(collection, uuid().to_string())`, propagating errors. -/
def rm (impl : CloudSyncImpl α κ) (self : α) (fs : FailSpec) (s : Store α) :
    Except CsError (Store α) × List StoreOp :=
  let cfg := impl.config
  if fs.connectOk = false then (.error .transport, [.connect])
  else
    let docId := impl.render (impl.uuid self)
    if fs.deleteOk = false then
      (.error .transport, [.connect, .deleteById cfg.collection docId])
    else
      (.ok (rmStore impl self s),
        [.connect, .deleteById cfg.collection docId])

/-- The entity list a successful `get` returns: every document of the
configured collection, deserialized, in store order (lib.rs line 64). -/
def getList (impl : CloudSyncImpl α κ) (s : Store α) : List α :=
  (s impl.config.collection).map (fun d => d.payload)

/-- Method `CloudSync::get` (lib.rs lines 61-66): resolve config, connect,
query all documents of the configured collection, propagating errors. -/
def get (impl : CloudSyncImpl α κ) (fs : FailSpec) (s : Store α) :
    Except CsError (List α) × List StoreOp :=
  let cfg := impl.config
  if fs.connectOk = false then (.error .transport, [.connect])
  else if fs.queryOk = false then
    (.error .transport, [.connect, .queryAll cfg.collection])
  else
    (.ok (getList impl s), [.connect, .queryAll cfg.collection])

/-- Rust `HashMap::insert` on the association-list model of
`HashMap<T, Self>`: any previous entry at the key is replaced by the new
one. -/
def hmInsert [DecidableEq κ] (m : List (κ × α)) (k : κ) (v : α) :
    List (κ × α) :=
  m.filter (fun p => p.1 ≠ k) ++ [(k, v)]

/-- Lookup in the association-list model of `HashMap<T, Self>`. -/
def hmGet [DecidableEq κ] (m : List (κ × α)) (k : κ) : Option α :=
  (m.find? (fun p => decide (p.1 = k))).map (fun p => p.2)

/-- The map a successful `hash` returns (lib.rs lines 73-78): query all
documents of the configured collection, then insert each object under
`obj.uuid()` (the raw key value, not its rendering) into an initially empty
`HashMap`, in query order. -/
def hashMap [DecidableEq κ] (impl : CloudSyncImpl α κ) (s : Store α) :
    List (κ × α) :=
  ((s impl.config.collection).map (fun d => d.payload)).foldl
    (fun h obj => hmInsert h (impl.uuid obj) obj) []

/-- Method `CloudSync::hash` (lib.rs lines 70-79): resolve config, connect,
query all documents, then build the map, propagating errors of the client
calls. -/
def hash [DecidableEq κ] (impl : CloudSyncImpl α κ) (fs : FailSpec)
    (s : Store α) : Except CsError (List (κ × α)) × List StoreOp :=
  let cfg := impl.config
  if fs.connectOk = false then (.error .transport, [.connect])
  else if fs.queryOk = false then
    (.error .transport, [.connect, .queryAll cfg.collection])
  else
    (.ok (hashMap impl s), [.connect, .queryAll cfg.collection])

/-- A collection is coherent when every document is stored under the
rendering of its own payload's key — which is how every document written
through this library is addressed (lib.rs lines 46-47). -/
def IdsAreKeys (impl : CloudSyncImpl α κ) (l : List (Doc α)) : Prop :=
  ∀ d ∈ l, d.id = impl.render (impl.uuid d.payload)

/-- Well-formed collection: document ids are pairwise distinct (the store
addresses documents by id, so ids are unique) and coherent with the payload
keys. -/
def WFColl (impl : CloudSyncImpl α κ) (l : List (Doc α)) : Prop :=
  (l.map (fun d => d.id)).Nodup ∧ IdsAreKeys impl l

/-- The `TestOBJ` entity of the source's test module. -/
structure TestOBJ where
  key : String
  data : String
deriving DecidableEq, Repr

/-- The `CloudSync<String>` / `Unique<String>` implementation for `TestOBJ`
from the source's test module: `uuid` returns the `key` field, the `Display`
rendering of a `String` is itself, and `config` names collection "testing". -/
def testImpl : CloudSyncImpl TestOBJ String where
  uuid := fun o => o.key
  render := fun k => k
  config := ⟨"cloudsync-testing", "./firebase.json", "testing"⟩

/-- The entity `{key: "aaa", data: "data"}` of the source's test. -/
def testObj : TestOBJ := ⟨"aaa", "data"⟩

/-- The map-building loop of `hash` applied to a given query-result list:
insert each object under its raw `uuid()` into an initially empty map, in
list order (lib.rs lines 74-77). -/
def hashFold [DecidableEq κ] (impl : CloudSyncImpl α κ) (l : List α) :
    List (κ × α) :=
  l.foldl (fun h obj => hmInsert h (impl.uuid obj) obj) []

/-- Modelled from the spec: the environment-variable-driven variant of the
trait (the spec's second, near-identical trait definition, which is not
present under src/). Per spec section 4.2 it takes the project id from an
environment variable, uses a fixed credential file path, and derives the
collection name from the type's declared name. -/
structure EnvSyncImpl (α : Type) (κ : Type) where
  uuid : α → κ
  render : κ → String
  projectVar : String
  fixedCredPath : String
  typeName : String

/-- Modelled from the spec: configuration resolution of the
environment-variable-driven variant. Resolution happens before a store
connection is opened; a missing required environment variable is a
configuration error, distinct from a transport error (spec sections 4.2
and 7). -/
def env_config (impl : EnvSyncImpl α κ) (envVars : String → Option String) :
    Except CsError CLConfig :=
  match envVars impl.projectVar with
  | none => .error .configuration
  | some pid => .ok ⟨pid, impl.fixedCredPath, impl.typeName⟩

/-- Modelled from the spec: `save` of the environment-variable-driven
variant resolves the configuration from the environment first; only on
success does it proceed to the connect / delete / create sequence. -/
def env_save (impl : EnvSyncImpl α κ) (envVars : String → Option String)
    (self : α) (fs : FailSpec) (s : Store α) :
    Except CsError (Store α) × List StoreOp :=
  match env_config impl envVars with
  | .error e => (.error e, [])
  | .ok cfg => saveSteps cfg (impl.render (impl.uuid self)) self fs s

/-- An environment-variable-driven implementation for `TestOBJ`, used as a
concrete witness fixture. -/
def testEnvImpl : EnvSyncImpl TestOBJ String where
  uuid := fun o => o.key
  render := fun k => k
  projectVar := "PROJECT_ID"
  fixedCredPath := "./firebase.json"
  typeName := "TestOBJ"

/-- In a coherent collection, the documents that survive a delete at the
rendering of key `k` all carry payloads whose key differs from `k`. -/
theorem filter_payloads_ne_key [DecidableEq κ] (impl : CloudSyncImpl α κ)
    (l : List (Doc α)) (k : κ) (hWF : IdsAreKeys impl l) :
    ((l.filter (fun d => d.id ≠ impl.render k)).map
        (fun d => d.payload)).filter (fun x => decide (impl.uuid x = k)) =
      [] := by
  rw [List.filter_eq_nil_iff]
  intro a ha
  simp only [List.mem_map, List.mem_filter, decide_eq_true_eq] at ha ⊢
  obtain ⟨d, ⟨hdl, hdne⟩, rfl⟩ := ha
  intro hk
  exact hdne (by rw [hWF d hdl, hk])

/-- C1: a succeeding `save` resolves the type's config and performs exactly
two document-store operations — a delete at the entity's rendered key in the
configured collection followed by a create at that same key, in that order,
with no other store operation (besides establishing the connection) — and
the resulting store is delete-then-create applied to the input store. -/
theorem save_is_delete_then_create (impl : CloudSyncImpl α κ) (self : α)
    (fs : FailSpec) (s : Store α)
    (h : ∃ s2, (save impl self fs s).1 = Except.ok s2) :
    (save impl self fs s).1 = Except.ok (saveStore impl self s) ∧
    (save impl self fs s).2 =
      [StoreOp.connect,
        StoreOp.deleteById impl.config.collection
          (impl.render (impl.uuid self)),
        StoreOp.createObj impl.config.collection
          (impl.render (impl.uuid self))] ∧
    ((save impl self fs s).2.filter StoreOp.isDocOp) =
      [StoreOp.deleteById impl.config.collection
          (impl.render (impl.uuid self)),
        StoreOp.createObj impl.config.collection
          (impl.render (impl.uuid self))] := by
  obtain ⟨s2, hs2⟩ := h
  rcases fs with ⟨c, d, cr, q⟩
  cases c <;> cases d <;> cases cr <;>
    simp_all [save, saveSteps, saveStore, StoreOp.isDocOp]

/-- Witness for C1 at the source's test fixture: the trace of a successful
save of `{key: "aaa", data: "data"}` is connect, delete "aaa", create
"aaa" in collection "testing". -/
theorem save_is_delete_then_create_witness :
    (save testImpl testObj fsOk (emptyStore TestOBJ)).2 =
      [StoreOp.connect, StoreOp.deleteById "testing" "aaa",
        StoreOp.createObj "testing" "aaa"] :=
  (save_is_delete_then_create testImpl testObj fsOk (emptyStore TestOBJ)
    ⟨_, rfl⟩).2.1

/-- C6: every underlying-step failure is propagated directly as the
operation's error result, with the trace showing no retry and no further
step: a connect failure aborts each of the four operations before any
document operation; a delete failure inside `save` prevents the create; a
delete failure aborts `rm`; a query failure aborts `get` and `hash`. -/
theorem error_propagation [DecidableEq κ] (impl : CloudSyncImpl α κ)
    (self : α) (fs : FailSpec) (s : Store α) :
    (fs.connectOk = false →
      save impl self fs s =
        (Except.error CsError.transport, [StoreOp.connect]) ∧
      rm impl self fs s =
        (Except.error CsError.transport, [StoreOp.connect]) ∧
      get impl fs s = (Except.error CsError.transport, [StoreOp.connect]) ∧
      hash impl fs s = (Except.error CsError.transport, [StoreOp.connect])) ∧
    (fs.connectOk = true → fs.deleteOk = false →
      save impl self fs s = (Except.error CsError.transport,
        [StoreOp.connect,
          StoreOp.deleteById impl.config.collection
            (impl.render (impl.uuid self))]) ∧
      rm impl self fs s = (Except.error CsError.transport,
        [StoreOp.connect,
          StoreOp.deleteById impl.config.collection
            (impl.render (impl.uuid self))])) ∧
    (fs.connectOk = true → fs.deleteOk = true → fs.createOk = false →
      save impl self fs s = (Except.error CsError.transport,
        [StoreOp.connect,
          StoreOp.deleteById impl.config.collection
            (impl.render (impl.uuid self)),
          StoreOp.createObj impl.config.collection
            (impl.render (impl.uuid self))])) ∧
    (fs.connectOk = true → fs.queryOk = false →
      get impl fs s = (Except.error CsError.transport,
        [StoreOp.connect, StoreOp.queryAll impl.config.collection]) ∧
      hash impl fs s = (Except.error CsError.transport,
        [StoreOp.connect, StoreOp.queryAll impl.config.collection])) := by
  rcases fs with ⟨c, d, cr, q⟩
  refine ⟨?_, ?_, ?_, ?_⟩ <;> intros <;>
    simp_all [save, saveSteps, rm, get, hash]

/-- Witness for C6: with a failing connection step, `save` at the test
fixture returns a transport error after the connect attempt alone. -/
theorem error_propagation_witness :
    save testImpl testObj ⟨false, true, true, true⟩ (emptyStore TestOBJ) =
      (Except.error CsError.transport, [StoreOp.connect]) :=
  ((error_propagation testImpl testObj ⟨false, true, true, true⟩
    (emptyStore TestOBJ)).1 rfl).1

/-- C7: in the environment-variable-driven variant, resolution with a
missing required environment variable fails with a configuration error —
distinct from a transport error — and the trace is empty: zero store
interactions, so no network call and no document operation is attempted. -/
theorem env_missing_var_fails_before_store (impl : EnvSyncImpl α κ)
    (envVars : String → Option String) (self : α) (fs : FailSpec)
    (s : Store α) (h : envVars impl.projectVar = none) :
    env_save impl envVars self fs s =
      (Except.error CsError.configuration, []) ∧
    CsError.configuration ≠ CsError.transport := by
  refine ⟨?_, by simp⟩
  simp [env_save, env_config, h]

/-- Witness for C7: with an environment holding no variables at all, the
env-driven save of the test entity fails with a configuration error and an
empty interaction trace. -/
theorem env_missing_var_fails_before_store_witness :
    env_save testEnvImpl (fun _ => none) testObj fsOk (emptyStore TestOBJ) =
      (Except.error CsError.configuration, []) :=
  (env_missing_var_fails_before_store testEnvImpl (fun _ => none) testObj
    fsOk (emptyStore TestOBJ) rfl).1

/-- A list with pairwise-distinct elements that are all equal to one value
has at most one element. -/
theorem length_le_one_of_nodup_const {β : Type} (l : List β) (b : β)
    (hn : l.Nodup) (hc : ∀ x ∈ l, x = b) : l.length ≤ 1 := by
  cases l with
  | nil => simp
  | cons x t =>
    cases t with
    | nil => simp
    | cons y u =>
      exfalso
      have hx := hc x (by simp)
      have hy := hc y (by simp)
      rw [List.nodup_cons] at hn
      exact hn.1 (by simp [hx, hy])

/-- Filtering preserves collection well-formedness. -/
theorem WFColl_filter (impl : CloudSyncImpl α κ) (l : List (Doc α))
    (p : Doc α → Bool) (h : WFColl impl l) : WFColl impl (l.filter p) := by
  refine ⟨?_, ?_⟩
  · exact ((l.filter_sublist).map (fun d => d.id)).nodup h.1
  · intro d hd
    exact h.2 d (List.mem_of_mem_filter hd)

/-- C2: from a coherent store state, a successful `save e` followed by `get`
yields a list whose entities with key equal to e's key are exactly `[e]` —
one occurrence, field-for-field equal to `e`; and starting from an empty
collection the whole returned list is `[e]`, of length 1. -/
theorem save_then_get_exactly_one [DecidableEq κ] (impl : CloudSyncImpl α κ)
    (self : α) (s : Store α)
    (hWF : IdsAreKeys impl (s impl.config.collection)) :
    (save impl self fsOk s).1 = Except.ok (saveStore impl self s) ∧
    (get impl fsOk (saveStore impl self s)).1 =
      Except.ok (getList impl (saveStore impl self s)) ∧
    (getList impl (saveStore impl self s)).filter
      (fun x => decide (impl.uuid x = impl.uuid self)) = [self] ∧
    (s impl.config.collection = [] →
      getList impl (saveStore impl self s) = [self]) := by
  have hcoll : (saveStore impl self s) impl.config.collection =
      (s impl.config.collection).filter
        (fun d => d.id ≠ impl.render (impl.uuid self)) ++
        [⟨impl.render (impl.uuid self), self⟩] := by
    simp [saveStore, create_obj, delete_by_id, List.filter_filter]
  refine ⟨rfl, rfl, ?_, ?_⟩
  · rw [getList, hcoll, List.map_append, List.filter_append,
      filter_payloads_ne_key impl _ _ hWF]
    simp
  · intro hempty
    rw [getList, hcoll, hempty]
    simp

/-- Witness for C2, realizing the spec's scenario: starting from the empty
collection "testing", after saving `{key: "aaa", data: "data"}`, `get`
returns exactly the one-element list holding that entity. -/
theorem save_then_get_exactly_one_witness :
    (getList testImpl (saveStore testImpl testObj (emptyStore TestOBJ))).filter
      (fun x => decide (testImpl.uuid x = testImpl.uuid testObj)) =
      [testObj] ∧
    getList testImpl (saveStore testImpl testObj (emptyStore TestOBJ)) =
      [testObj] := by
  have h := save_then_get_exactly_one testImpl testObj (emptyStore TestOBJ)
    (by intro d hd; cases hd)
  exact ⟨h.2.2.1, h.2.2.2 rfl⟩

/-- C4: `rm` succeeds with the delete-by-id store — in particular it is not
an error when no document at the entity's key exists, in which case the
store is left unchanged — and from a coherent state, `save e` followed by
`rm e` leaves a store whose `get` contains no entity with key equal to e's
key. -/
theorem rm_removes_key [DecidableEq κ] (impl : CloudSyncImpl α κ)
    (self : α) (s : Store α) :
    (rm impl self fsOk s).1 = Except.ok (rmStore impl self s) ∧
    ((∀ d ∈ s impl.config.collection,
        d.id ≠ impl.render (impl.uuid self)) →
      ∀ c, (rmStore impl self s) c = s c) ∧
    (IdsAreKeys impl (s impl.config.collection) →
      (get impl fsOk (rmStore impl self (saveStore impl self s))).1 =
        Except.ok
          (getList impl (rmStore impl self (saveStore impl self s))) ∧
      (getList impl (rmStore impl self (saveStore impl self s))).filter
        (fun x => decide (impl.uuid x = impl.uuid self)) = []) := by
  refine ⟨rfl, ?_, ?_⟩
  · intro habs c
    rw [rmStore, delete_by_id]
    by_cases hc : c = impl.config.collection
    · subst hc
      rw [if_pos rfl, List.filter_eq_self.mpr]
      intro d hd
      simpa using habs d hd
    · rw [if_neg hc]
  · intro hWF
    refine ⟨rfl, ?_⟩
    have hcoll : (rmStore impl self (saveStore impl self s))
        impl.config.collection =
        (s impl.config.collection).filter
          (fun d => d.id ≠ impl.render (impl.uuid self)) := by
      simp [rmStore, saveStore, create_obj, delete_by_id,
        List.filter_filter, List.filter_append]
    rw [getList, hcoll, filter_payloads_ne_key impl _ _ hWF]

/-- Witness for C4: removing the test entity from the empty store succeeds,
leaves every collection unchanged, and after save-then-remove of the test
entity no entity with its key remains. -/
theorem rm_removes_key_witness :
    (rm testImpl testObj fsOk (emptyStore TestOBJ)).1 =
      Except.ok (rmStore testImpl testObj (emptyStore TestOBJ)) ∧
    (rmStore testImpl testObj (emptyStore TestOBJ)) "testing" = [] ∧
    (getList testImpl
        (rmStore testImpl testObj
          (saveStore testImpl testObj (emptyStore TestOBJ)))).filter
      (fun x => decide (testImpl.uuid x = testImpl.uuid testObj)) = [] := by
  have h := rm_removes_key testImpl testObj (emptyStore TestOBJ)
  exact ⟨h.1, h.2.1 (by intro d hd; cases hd) "testing",
    (h.2.2 (by intro d hd; cases hd)).2⟩

/-- The configured collection after a successful `save`: every document at
the entity's rendered key is removed, then the entity is appended under that
key. -/
theorem saveStore_collection (impl : CloudSyncImpl α κ) (self : α)
    (s : Store α) :
    (saveStore impl self s) impl.config.collection =
      (s impl.config.collection).filter
        (fun d => d.id ≠ impl.render (impl.uuid self)) ++
      [⟨impl.render (impl.uuid self), self⟩] := by
  simp [saveStore, create_obj, delete_by_id, List.filter_filter]

/-- The configured collection after a successful `rm`: every document at the
entity's rendered key is removed. -/
theorem rmStore_collection (impl : CloudSyncImpl α κ) (self : α)
    (s : Store α) :
    (rmStore impl self s) impl.config.collection =
      (s impl.config.collection).filter
        (fun d => d.id ≠ impl.render (impl.uuid self)) := by
  simp [rmStore, delete_by_id]

/-- Collections other than the configured one are untouched by `save` and
`rm`. -/
theorem store_other_collections (impl : CloudSyncImpl α κ) (self : α)
    (s : Store α) (c : String) (hc : c ≠ impl.config.collection) :
    (saveStore impl self s) c = s c ∧ (rmStore impl self s) c = s c := by
  constructor <;>
    simp [saveStore, rmStore, create_obj, delete_by_id, hc]

/-- Replacing the document at an entity's rendered key preserves collection
well-formedness. -/
theorem WFColl_upsert (impl : CloudSyncImpl α κ) (m : List (Doc α))
    (self : α) (h : WFColl impl m) :
    WFColl impl
      (m.filter (fun d => d.id ≠ impl.render (impl.uuid self)) ++
        [⟨impl.render (impl.uuid self), self⟩]) := by
  constructor
  · rw [List.map_append]
    apply List.Nodup.append
    · exact ((m.filter_sublist).map (fun d => d.id)).nodup h.1
    · simp
    · intro a ha hb
      simp only [List.mem_map, List.mem_filter, decide_eq_true_eq] at ha
      obtain ⟨d, ⟨hdm, hdne⟩, rfl⟩ := ha
      simp only [List.map_cons, List.map_nil, List.mem_singleton] at hb
      exact hdne hb
  · intro d hd
    rcases List.mem_append.mp hd with h1 | h2
    · exact h.2 d (List.mem_of_mem_filter h1)
    · simp only [List.mem_singleton] at h2
      subst h2
      rfl

/-- C3: `save` and `rm` preserve collection well-formedness (pairwise
distinct document ids, each id the rendering of its payload's key); a
well-formed collection holds at most one document per key value; and saving
twice with the same key leaves exactly one document at that key, holding the
second payload, with no duplicates or stale copies. -/
theorem save_unique_key_invariant [DecidableEq κ]
    (impl : CloudSyncImpl α κ) (e1 e2 self : α) (s : Store α) (c : String) :
    (WFColl impl (s c) →
      WFColl impl ((saveStore impl self s) c) ∧
      WFColl impl ((rmStore impl self s) c)) ∧
    (WFColl impl (s c) → ∀ k : κ,
      ((s c).filter
        (fun d => decide (impl.uuid d.payload = k))).length ≤ 1) ∧
    (impl.uuid e1 = impl.uuid e2 →
      ((saveStore impl e2 (saveStore impl e1 s))
          impl.config.collection).filter
        (fun d => d.id = impl.render (impl.uuid e2)) =
        [⟨impl.render (impl.uuid e2), e2⟩]) := by
  refine ⟨?_, ?_, ?_⟩
  · intro h
    by_cases hc : c = impl.config.collection
    · subst hc
      rw [saveStore_collection, rmStore_collection]
      exact ⟨WFColl_upsert impl _ self h, WFColl_filter impl _ _ h⟩
    · rw [(store_other_collections impl self s c hc).1,
        (store_other_collections impl self s c hc).2]
      exact ⟨h, h⟩
  · intro h k
    have hnd : (((s c).filter
        (fun d => decide (impl.uuid d.payload = k))).map
          (fun d => d.id)).Nodup :=
      (((s c).filter_sublist).map (fun d => d.id)).nodup h.1
    have hconst : ∀ x ∈ ((s c).filter
        (fun d => decide (impl.uuid d.payload = k))).map
          (fun d => d.id), x = impl.render k := by
      intro x hx
      simp only [List.mem_map, List.mem_filter, decide_eq_true_eq] at hx
      obtain ⟨d, ⟨hdm, hdk⟩, rfl⟩ := hx
      rw [h.2 d hdm, hdk]
    have := length_le_one_of_nodup_const _ (impl.render k) hnd hconst
    simpa using this
  · intro h12
    have hr : impl.render (impl.uuid e1) = impl.render (impl.uuid e2) := by
      rw [h12]
    rw [saveStore_collection impl e2, saveStore_collection impl e1, hr]
    simp [List.filter_append, List.filter_filter, List.filter_eq_nil_iff]

/-- Witness for C3: saving `{key: "aaa", data: "data"}` and then
`{key: "aaa", data: "data2"}` into an empty store leaves exactly one
document at id "aaa" in collection "testing", holding the second payload. -/
theorem save_unique_key_invariant_witness :
    ((saveStore testImpl ⟨"aaa", "data2"⟩
        (saveStore testImpl testObj (emptyStore TestOBJ))) "testing").filter
      (fun d => d.id = "aaa") =
      [⟨"aaa", ⟨"aaa", "data2"⟩⟩] :=
  (save_unique_key_invariant testImpl testObj ⟨"aaa", "data2"⟩ testObj
    (emptyStore TestOBJ) "testing").2.2 rfl

/-- Looking up after a map insert hits the new entry at its key and falls
back to the old map elsewhere. -/
theorem hmGet_hmInsert [DecidableEq κ] (m : List (κ × α)) (k0 k : κ)
    (v : α) :
    hmGet (hmInsert m k0 v) k = if k = k0 then some v else hmGet m k := by
  induction m with
  | nil =>
    by_cases h : k = k0 <;>
      simp_all [hmGet, hmInsert, List.find?_cons, eq_comm]
  | cons q t ih =>
    by_cases hq : q.1 = k0 <;> by_cases hk : k = k0 <;> by_cases hqk : q.1 = k <;>
      simp_all [hmGet, hmInsert, List.filter_cons, List.find?_cons]

/-- Membership in the key list after a map insert. -/
theorem mem_keys_hmInsert [DecidableEq κ] (m : List (κ × α)) (k0 k : κ)
    (v : α) :
    k ∈ (hmInsert m k0 v).map Prod.fst ↔
      k = k0 ∨ k ∈ m.map Prod.fst := by
  simp only [hmInsert, List.map_append, List.mem_append, List.map_cons,
    List.map_nil, List.mem_singleton, List.mem_map, List.mem_filter,
    decide_eq_true_eq]
  constructor
  · rintro (⟨p, ⟨hp, hne⟩, rfl⟩ | rfl)
    · exact Or.inr ⟨p, hp, rfl⟩
    · exact Or.inl rfl
  · rintro (rfl | ⟨p, hp, rfl⟩)
    · exact Or.inr rfl
    · by_cases h : p.1 = k0
      · exact Or.inr h
      · exact Or.inl ⟨p, ⟨hp, h⟩, rfl⟩

/-- The keys reached by the map-building loop are the accumulator's keys
together with the keys of the iterated objects. -/
theorem mem_keys_hashFold_acc [DecidableEq κ] (impl : CloudSyncImpl α κ)
    (l : List α) (acc : List (κ × α)) (k : κ) :
    (k ∈ (l.foldl (fun h obj => hmInsert h (impl.uuid obj) obj) acc).map
        Prod.fst) ↔
      (k ∈ acc.map Prod.fst ∨ ∃ a ∈ l, impl.uuid a = k) := by
  induction l generalizing acc with
  | nil => simp
  | cons x t ih =>
    rw [List.foldl_cons, ih, mem_keys_hmInsert]
    simp only [List.mem_cons]
    constructor
    · rintro ((h | h) | ⟨a, ha, hk⟩)
      · exact Or.inr ⟨x, Or.inl rfl, h.symm⟩
      · exact Or.inl h
      · exact Or.inr ⟨a, Or.inr ha, hk⟩
    · rintro (h | ⟨a, ha | ha, hk⟩)
      · exact Or.inl (Or.inr h)
      · exact Or.inl (Or.inl (by rw [ha] at hk; exact hk.symm))
      · exact Or.inr ⟨a, ha, hk⟩

/-- Inserting preserves the no-duplicate-keys property of the map. -/
theorem keys_nodup_hmInsert [DecidableEq κ] (m : List (κ × α)) (k0 : κ)
    (v : α) (h : (m.map Prod.fst).Nodup) :
    ((hmInsert m k0 v).map Prod.fst).Nodup := by
  rw [hmInsert, List.map_append]
  apply List.Nodup.append
  · exact ((m.filter_sublist).map Prod.fst).nodup h
  · simp
  · intro a ha hb
    simp only [List.mem_map, List.mem_filter, decide_eq_true_eq] at ha
    obtain ⟨p, ⟨hp, hne⟩, rfl⟩ := ha
    simp only [List.map_cons, List.map_nil, List.mem_singleton] at hb
    exact hne hb

/-- The map-building loop never produces duplicate keys. -/
theorem keys_nodup_hashFold_acc [DecidableEq κ] (impl : CloudSyncImpl α κ)
    (l : List α) (acc : List (κ × α)) (h : (acc.map Prod.fst).Nodup) :
    ((l.foldl (fun h obj => hmInsert h (impl.uuid obj) obj) acc).map
      Prod.fst).Nodup := by
  induction l generalizing acc with
  | nil => exact h
  | cons x t ih => exact ih _ (keys_nodup_hmInsert _ _ _ h)

/-- Inserting grows the map by at most one entry. -/
theorem hmInsert_length_le [DecidableEq κ] (m : List (κ × α)) (k0 : κ)
    (v : α) : (hmInsert m k0 v).length ≤ m.length + 1 := by
  rw [hmInsert, List.length_append]
  have := m.length_filter_le (fun p => decide (p.1 ≠ k0))
  simp only [List.length_cons, List.length_nil]
  omega

/-- The map built by the loop has at most one entry per iterated object. -/
theorem hashFold_length_le_acc [DecidableEq κ] (impl : CloudSyncImpl α κ)
    (l : List α) (acc : List (κ × α)) :
    (l.foldl (fun h obj => hmInsert h (impl.uuid obj) obj) acc).length ≤
      acc.length + l.length := by
  induction l generalizing acc with
  | nil => simp
  | cons x t ih =>
    rw [List.foldl_cons]
    have h1 := ih (hmInsert acc (impl.uuid x) x)
    have h2 := hmInsert_length_le acc (impl.uuid x) x
    simp only [List.length_cons]
    omega

/-- Every value sitting in the map built by the loop is either a value of
the accumulator or one of the iterated objects. -/
theorem hashFold_values_mem_acc [DecidableEq κ] (impl : CloudSyncImpl α κ)
    (l : List α) (acc : List (κ × α)) :
    ∀ p ∈ l.foldl (fun h obj => hmInsert h (impl.uuid obj) obj) acc,
      p.2 ∈ acc.map Prod.snd ∨ p.2 ∈ l := by
  induction l generalizing acc with
  | nil =>
    intro p hp
    exact Or.inl (List.mem_map_of_mem Prod.snd hp)
  | cons x t ih =>
    intro p hp
    rcases ih (hmInsert acc (impl.uuid x) x) p hp with h | h
    · rw [hmInsert, List.map_append] at h
      rcases List.mem_append.mp h with h1 | h2
      · obtain ⟨q, hq, hqp⟩ := List.mem_map.mp h1
        exact Or.inl (List.mem_map.mpr ⟨q, List.mem_of_mem_filter hq, hqp⟩)
      · simp only [List.map_cons, List.map_nil, List.mem_singleton] at h2
        exact Or.inr (by rw [h2]; exact List.mem_cons_self x t)
    · exact Or.inr (List.mem_cons_of_mem x h)

/-- At every key, the map built by the loop holds the last object of the
iteration order with that key: later entries overwrite earlier ones. -/
theorem hmGet_hashFold [DecidableEq κ] (impl : CloudSyncImpl α κ)
    (l : List α) (k : κ) :
    hmGet (hashFold impl l) k =
      (l.filter (fun a => decide (impl.uuid a = k))).getLast? := by
  induction l using List.reverseRecOn with
  | nil => rfl
  | append_singleton t x ih =>
    rw [hashFold, List.foldl_append, List.foldl_cons, List.foldl_nil]
    rw [show (t.foldl (fun h obj => hmInsert h (impl.uuid obj) obj) []) =
        hashFold impl t from rfl]
    rw [hmGet_hmInsert, List.filter_append]
    by_cases h : impl.uuid x = k
    · rw [if_pos h.symm]
      simp [h]
    · rw [if_neg (fun hk => h hk.symm)]
      simp [h, ih]

/-- C5: `hash` returns the map built by inserting each fetched entity under
its key; its key list has no duplicates; its key set is exactly the set of
key values of the entities present in the collection; that key set is
unchanged under any permutation of the order in which the store yields the
documents; and at each key the map holds the last entity of the iteration
order carrying that key — later entries silently overwrite earlier ones. -/
theorem hash_key_set [DecidableEq κ] (impl : CloudSyncImpl α κ)
    (s : Store α) :
    (hash impl fsOk s).1 = Except.ok (hashMap impl s) ∧
    hashMap impl s = hashFold impl (getList impl s) ∧
    ((hashMap impl s).map Prod.fst).Nodup ∧
    (∀ k : κ, k ∈ (hashMap impl s).map Prod.fst ↔
      ∃ a ∈ getList impl s, impl.uuid a = k) ∧
    (∀ l1 l2 : List α, l1.Perm l2 → ∀ k : κ,
      (k ∈ (hashFold impl l1).map Prod.fst ↔
        k ∈ (hashFold impl l2).map Prod.fst)) ∧
    (∀ k : κ, hmGet (hashMap impl s) k =
      ((getList impl s).filter
        (fun a => decide (impl.uuid a = k))).getLast?) := by
  refine ⟨rfl, rfl, ?_, ?_, ?_, ?_⟩
  · exact keys_nodup_hashFold_acc impl _ [] (by simp)
  · intro k
    have := mem_keys_hashFold_acc impl (getList impl s) [] k
    simpa using this
  · intro l1 l2 hperm k
    rw [show hashFold impl l1 =
        l1.foldl (fun h obj => hmInsert h (impl.uuid obj) obj) [] from rfl,
      show hashFold impl l2 =
        l2.foldl (fun h obj => hmInsert h (impl.uuid obj) obj) [] from rfl,
      mem_keys_hashFold_acc, mem_keys_hashFold_acc]
    constructor
    · rintro (h | ⟨a, ha, hk⟩)
      · exact Or.inl h
      · exact Or.inr ⟨a, hperm.mem_iff.mp ha, hk⟩
    · rintro (h | ⟨a, ha, hk⟩)
      · exact Or.inl h
      · exact Or.inr ⟨a, hperm.mem_iff.mpr ha, hk⟩
  · intro k
    exact hmGet_hashFold impl (getList impl s) k

/-- Witness for C5: the key set of the built map does not depend on the
order in which the two documents "aaa" and "bbb" are yielded. -/
theorem hash_key_set_witness :
    "aaa" ∈ (hashFold testImpl [testObj, ⟨"bbb", "y"⟩]).map Prod.fst ↔
      "aaa" ∈ (hashFold testImpl [⟨"bbb", "y"⟩, testObj]).map Prod.fst :=
  (hash_key_set testImpl (emptyStore TestOBJ)).2.2.2.2.1
    [testObj, ⟨"bbb", "y"⟩] [⟨"bbb", "y"⟩, testObj]
    (List.Perm.swap _ _ _) "aaa"

/-- C9: `hash` returns exactly the map obtained by folding the insert
operation over the sequence `get` returns from the same store state, keyed
by `uuid` in sequence order; consequently the map has at most as many
entries as `get`'s list has elements, and every value in the map is an
element of `get`'s result. -/
theorem hash_refines_get [DecidableEq κ] (impl : CloudSyncImpl α κ)
    (s : Store α) :
    (hash impl fsOk s).1 = Except.ok (hashMap impl s) ∧
    (get impl fsOk s).1 = Except.ok (getList impl s) ∧
    hashMap impl s = (getList impl s).foldl
      (fun h obj => hmInsert h (impl.uuid obj) obj) [] ∧
    (hashMap impl s).length ≤ (getList impl s).length ∧
    (∀ p ∈ hashMap impl s, p.2 ∈ getList impl s) := by
  refine ⟨rfl, rfl, rfl, ?_, ?_⟩
  · have := hashFold_length_le_acc impl (getList impl s) []
    simpa using this
  · intro p hp
    have := hashFold_values_mem_acc impl (getList impl s) [] p hp
    simpa using this

/-- Witness for C9: in the store holding the saved test entity, the value
found in the built map is an element of what `get` returns. -/
theorem hash_refines_get_witness :
    (("aaa", testObj) : String × TestOBJ).2 ∈
      getList testImpl (saveStore testImpl testObj (emptyStore TestOBJ)) :=
  (hash_refines_get testImpl
      (saveStore testImpl testObj (emptyStore TestOBJ))).2.2.2.2
    ("aaa", testObj) (by decide)

/-- An entity type keyed by a pair whose rendering keeps only the first
component, so distinct key values can render to the same document id. -/
structure PairOBJ where
  tag : String
  num : Nat
  data : String
deriving DecidableEq, Repr

/-- A trait implementation for `PairOBJ` with the non-injective rendering. -/
def pairImpl : CloudSyncImpl PairOBJ (String × Nat) where
  uuid := fun o => (o.tag, o.num)
  render := fun k => k.1
  config := ⟨"cloudsync-testing", "./firebase.json", "pairs"⟩

/-- C8: the delete and create inside `save` and the delete inside `rm` all
address the document by the Display rendering of `uuid()` — every trace
entry carries `render (uuid self)` as the id; hence two entities with
distinct key values that render to the same string address the same
document (removing the second removes exactly what removing the first
would), while `hash` keys its map by the raw key value: an entity saved
into an empty collection sits in the map under its own key and not under
the equal-rendering key of the other entity. -/
theorem addressing_by_rendered_uuid [DecidableEq κ]
    (impl : CloudSyncImpl α κ) (e1 e2 : α) (s : Store α) :
    (save impl e1 fsOk s).2 =
      [StoreOp.connect,
        StoreOp.deleteById impl.config.collection
          (impl.render (impl.uuid e1)),
        StoreOp.createObj impl.config.collection
          (impl.render (impl.uuid e1))] ∧
    (rm impl e2 fsOk s).2 =
      [StoreOp.connect,
        StoreOp.deleteById impl.config.collection
          (impl.render (impl.uuid e2))] ∧
    (impl.render (impl.uuid e1) = impl.render (impl.uuid e2) →
      ∀ c, (rmStore impl e2 (saveStore impl e1 s)) c =
        (rmStore impl e1 (saveStore impl e1 s)) c) ∧
    (impl.render (impl.uuid e1) = impl.render (impl.uuid e2) →
      impl.uuid e1 ≠ impl.uuid e2 →
      s impl.config.collection = [] →
      hmGet (hashMap impl (saveStore impl e1 s)) (impl.uuid e1) =
        some e1 ∧
      hmGet (hashMap impl (saveStore impl e1 s)) (impl.uuid e2) = none) := by
  refine ⟨rfl, rfl, ?_, ?_⟩
  · intro hr c
    simp [rmStore, delete_by_id, hr]
  · intro hr hne hempty
    have hcoll := saveStore_collection impl e1 s
    rw [hempty] at hcoll
    constructor
    · simp [hashMap, hcoll, hmGet, hmInsert, List.find?_cons]
    · simp [hashMap, hcoll, hmGet, hmInsert, List.find?_cons, hne]

/-- Witness for C8 at the pair-keyed fixture: the keys ("aaa", 1) and
("aaa", 2) render to the same document id, so removing the second entity
after saving the first acts on the very document the first entity's own
removal would target, while the map built by `hash` holds the saved entity
under ("aaa", 1) and holds nothing under ("aaa", 2). -/
theorem addressing_by_rendered_uuid_witness :
    (∀ c, (rmStore pairImpl ⟨"aaa", 2, "d2"⟩
        (saveStore pairImpl ⟨"aaa", 1, "d1"⟩ (emptyStore PairOBJ))) c =
      (rmStore pairImpl ⟨"aaa", 1, "d1"⟩
        (saveStore pairImpl ⟨"aaa", 1, "d1"⟩ (emptyStore PairOBJ))) c) ∧
    hmGet (hashMap pairImpl
        (saveStore pairImpl ⟨"aaa", 1, "d1"⟩ (emptyStore PairOBJ)))
      ("aaa", 1) = some ⟨"aaa", 1, "d1"⟩ ∧
    hmGet (hashMap pairImpl
        (saveStore pairImpl ⟨"aaa", 1, "d1"⟩ (emptyStore PairOBJ)))
      ("aaa", 2) = none := by
  have h := addressing_by_rendered_uuid pairImpl ⟨"aaa", 1, "d1"⟩
    ⟨"aaa", 2, "d2"⟩ (emptyStore PairOBJ)
  exact ⟨h.2.2.1 rfl, (h.2.2.2 rfl (by decide) rfl).1,
    (h.2.2.2 rfl (by decide) rfl).2⟩

/-- C10: `save` and `rm` modify at most the single document whose id is the
entity's rendered key in the configured collection: every other collection
is untouched, and within the configured collection the documents at every
other id are exactly those of the input store, in order. -/
theorem save_rm_frame (impl : CloudSyncImpl α κ) (self : α) (s : Store α) :
    (save impl self fsOk s).1 = Except.ok (saveStore impl self s) ∧
    (rm impl self fsOk s).1 = Except.ok (rmStore impl self s) ∧
    (∀ c, c ≠ impl.config.collection →
      (saveStore impl self s) c = s c ∧ (rmStore impl self s) c = s c) ∧
    (((saveStore impl self s) impl.config.collection).filter
        (fun d => d.id ≠ impl.render (impl.uuid self)) =
      (s impl.config.collection).filter
        (fun d => d.id ≠ impl.render (impl.uuid self))) ∧
    (((rmStore impl self s) impl.config.collection).filter
        (fun d => d.id ≠ impl.render (impl.uuid self)) =
      (s impl.config.collection).filter
        (fun d => d.id ≠ impl.render (impl.uuid self))) := by
  refine ⟨rfl, rfl, ?_, ?_, ?_⟩
  · intro c hc
    exact store_other_collections impl self s c hc
  · rw [saveStore_collection, List.filter_append, List.filter_filter]
    simp
  · rw [rmStore_collection, List.filter_filter]
    simp

/-- Witness for C10: saving and removing the test entity leave the
unrelated collection "other" exactly as it was (empty). -/
theorem save_rm_frame_witness :
    (saveStore testImpl testObj (emptyStore TestOBJ)) "other" = [] ∧
    (rmStore testImpl testObj (emptyStore TestOBJ)) "other" = [] :=
  (save_rm_frame testImpl testObj (emptyStore TestOBJ)).2.2.1 "other"
    (by decide)

end Cloudsync
